import Mathlib

/-!
Verification of the request-model / pagination core of the
usa-spending-mcp-server repository, shallowly embedded in Lean 4.

Python strings are modelled as `String` with the operations the source
uses (`strip`, `split(sep)`, `split(sep, 1)`, `lower`, membership of a
single character) re-implemented over `List Char`.  Python `float` values
are modelled as `ℚ` (the source only ever parses decimal literals and
re-serializes them; no float arithmetic occurs).  Fallible Python code
(constructors that raise `ValueError` / pydantic validation errors)
returns `Except PErr _`.  JSON payloads are modelled by the inductive
`JValue`, with Python `None` as `JValue.null`.
-/

namespace USASpending

/-- Python `str.strip()` on a character list: drop ASCII whitespace from
both ends. -/
def pyStrip (l : List Char) : List Char :=
  (l.dropWhile Char.isWhitespace).reverse.dropWhile Char.isWhitespace |>.reverse

/-- Python `s.split(sep)` for a one-character separator: always returns at
least one (possibly empty) piece; `"".split(sep) == [""]`. -/
def pySplit (sep : Char) : List Char → List (List Char)
  | [] => [[]]
  | c :: cs =>
    match pySplit sep cs with
    | [] => [[c]]
    | h :: t => if c = sep then [] :: h :: t else (c :: h) :: t

/-- Python `s.split(sep, 1)` for a one-character separator: split on the
first occurrence only. -/
def pySplit1 (sep : Char) : List Char → List (List Char)
  | [] => [[]]
  | c :: cs =>
    if c = sep then [[], cs]
    else
      match pySplit1 sep cs with
      | [] => [[c]]
      | h :: t => (c :: h) :: t

/-- String-valued wrapper of `pyStrip`. -/
def pyStripS (s : String) : String := ⟨pyStrip s.data⟩

/-- String-valued wrapper of `pySplit`. -/
def pySplitS (sep : Char) (s : String) : List String :=
  (pySplit sep s.data).map fun l => (⟨l⟩ : String)

/-- Python `str.lower()` (ASCII suffices for the inputs the source
compares against). -/
def pyLower (s : String) : String := ⟨s.data.map Char.toLower⟩

/-- Python truthiness of an optional string (`None` and `""` are falsy). -/
def optStrTruthy : Option String → Bool
  | none => false
  | some s => s ≠ ""

theorem pySplit_ne_nil (sep : Char) (l : List Char) : pySplit sep l ≠ [] := by
  cases l with
  | nil => simp [pySplit]
  | cons c cs =>
    simp only [pySplit]
    rcases h : pySplit sep cs with _ | ⟨h', t⟩ <;> simp
    split <;> simp

theorem pySplit_eq_singleton_iff (sep : Char) (l : List Char) :
    pySplit sep l = [l] ↔ sep ∉ l := by
  induction l with
  | nil => simp [pySplit]
  | cons c cs ih =>
    rcases h : pySplit sep cs with _ | ⟨h', t⟩
    · exact absurd h (pySplit_ne_nil sep cs)
    · by_cases hc : c = sep
      · subst hc
        simp [pySplit, h]
      · simp only [pySplit, h, if_neg hc, List.mem_cons, not_or]
        constructor
        · intro heq
          obtain ⟨h1, h2⟩ := List.cons_eq_cons.mp heq
          have hh : h' = cs := (List.cons_eq_cons.mp h1).2
          refine ⟨fun he => hc he.symm, ih.mp ?_⟩
          rw [h, hh, h2]
        · rintro ⟨-, hmem⟩
          have h2 : h' :: t = [cs] := h ▸ ih.mpr hmem
          obtain ⟨hh, ht⟩ := List.cons_eq_cons.mp h2
          rw [hh, ht]

theorem pySplit_mem_two_le (sep : Char) (l : List Char) (h : sep ∈ l) :
    2 ≤ (pySplit sep l).length := by
  induction l with
  | nil => simp at h
  | cons c cs ih =>
    simp only [pySplit]
    rcases hs : pySplit sep cs with _ | ⟨h', t⟩
    · exact absurd hs (pySplit_ne_nil sep cs)
    · by_cases hc : c = sep
      · simp [hc]
      · simp only [if_neg hc, List.length_cons]
        rcases List.mem_cons.mp h with h1 | h2
        · exact absurd h1.symm hc
        · have := ih h2
          rw [hs] at this
          simpa using this

theorem pySplit1_of_not_mem (sep : Char) (l : List Char) (h : sep ∉ l) :
    pySplit1 sep l = [l] := by
  induction l with
  | nil => simp [pySplit1]
  | cons c cs ih =>
    simp only [List.mem_cons, not_or] at h
    have hc : ¬ c = sep := fun hh => h.1 hh.symm
    simp [pySplit1, hc, ih h.2]

theorem pySplit1_of_mem (sep : Char) (l : List Char) (h : sep ∈ l) :
    ∃ p q, pySplit1 sep l = [p, q] := by
  induction l with
  | nil => simp at h
  | cons c cs ih =>
    by_cases hc : c = sep
    · exact ⟨[], cs, by simp [pySplit1, hc]⟩
    · rcases List.mem_cons.mp h with h1 | h2
      · exact absurd h1.symm hc
      · obtain ⟨p, q, hpq⟩ := ih h2
        exact ⟨c :: p, q, by simp [pySplit1, if_neg hc, hpq]⟩

/-! ## Error kinds

All `ValueError`s / pydantic validation errors raised during request
construction are collapsed into one error type; the constructor records
which kind of failure occurred (enough to state the claims about
"invalid-enum" and "invalid-number" failures). -/

/-- Validation error raised while building a request. -/
inductive PErr where
  | invalidEnum (enumName value : String)
  | invalidNumber (value : String)
  | invalidInt (value : String)
  | invalidDate (value : String)
  | dateOrder
  | paginationRange
  | invalidGeoFilter (layer code : String)
  deriving DecidableEq, Repr

/-- Lift an `Option` to `Except`, raising the given error on `none`
(models a Python expression that raises `ValueError`). -/
def ofOption {α : Type} (o : Option α) (e : PErr) : Except PErr α :=
  match o with
  | some a => .ok a
  | none => .error e

/-! ## Domain enumerations (`common_models.py`) -/

/-- `AwardTypeCode` enumeration from `common_models.py`. -/
inductive AwardTypeCode where
  | A | B | C | D
  | g02 | g03 | g04 | g05
  | dp06 | dp10
  | loan07 | loan08
  | other09 | other11 | otherNeg1
  | IDV
  deriving DecidableEq, Repr

/-- The `.value` string of an `AwardTypeCode` member. -/
def AwardTypeCode.value : AwardTypeCode → String
  | .A => "A" | .B => "B" | .C => "C" | .D => "D"
  | .g02 => "02" | .g03 => "03" | .g04 => "04" | .g05 => "05"
  | .dp06 => "06" | .dp10 => "10"
  | .loan07 => "07" | .loan08 => "08"
  | .other09 => "09" | .other11 => "11" | .otherNeg1 => "-1"
  | .IDV => "IDV"

/-- `AwardTypeCode(s)`: look a string up in the enumeration
(`ValueError`, i.e. `none`, if it is not a member). -/
def AwardTypeCode.ofString (s : String) : Option AwardTypeCode :=
  if s = "A" then some .A else if s = "B" then some .B
  else if s = "C" then some .C else if s = "D" then some .D
  else if s = "02" then some .g02 else if s = "03" then some .g03
  else if s = "04" then some .g04 else if s = "05" then some .g05
  else if s = "06" then some .dp06 else if s = "10" then some .dp10
  else if s = "07" then some .loan07 else if s = "08" then some .loan08
  else if s = "09" then some .other09 else if s = "11" then some .other11
  else if s = "-1" then some .otherNeg1 else if s = "IDV" then some .IDV
  else none

/-- `AgencyType` enumeration (`awarding` / `funding`). -/
inductive AgencyType where
  | awarding | funding
  deriving DecidableEq, Repr

def AgencyType.value : AgencyType → String
  | .awarding => "awarding"
  | .funding => "funding"

/-- `AgencyType(s)` lookup. -/
def AgencyType.ofString (s : String) : Option AgencyType :=
  if s = "awarding" then some .awarding
  else if s = "funding" then some .funding
  else none

/-- `AgencyTier` enumeration (`toptier` / `subtier`). -/
inductive AgencyTier where
  | toptier | subtier
  deriving DecidableEq, Repr

def AgencyTier.value : AgencyTier → String
  | .toptier => "toptier"
  | .subtier => "subtier"

/-- `AgencyTier(s)` lookup. -/
def AgencyTier.ofString (s : String) : Option AgencyTier :=
  if s = "toptier" then some .toptier
  else if s = "subtier" then some .subtier
  else none

/-- `SortOrder` enumeration (`asc` / `desc`). -/
inductive SortOrder where
  | asc | desc
  deriving DecidableEq, Repr

def SortOrder.value : SortOrder → String
  | .asc => "asc"
  | .desc => "desc"

/-- `SortOrder(s)` lookup. -/
def SortOrder.ofString (s : String) : Option SortOrder :=
  if s = "asc" then some .asc
  else if s = "desc" then some .desc
  else none

/-! ## `Agency` and `Agency.parse_agency_string` (`common_models.py`) -/

/-- The `Agency` pydantic model: `name` required, `type` defaults to
`awarding`, `tier` defaults to `toptier`, `top_tier_name` optional. -/
structure Agency where
  name : String
  type : AgencyType := .awarding
  tier : AgencyTier := .toptier
  top_tier_name : Option String := none
  deriving DecidableEq, Repr

/-- `Agency.parse_agency_string` from `common_models.py`:
strip the input; if it contains no `:` take the whole (stripped) string as
the name; otherwise split on `:` and interpret 2 parts as `type:name`,
3 parts as `tier:top_tier_name:name`, 4 parts as
`type:tier:top_tier_name:name`, and any other part count as a fallback to
the whole string as name.  Unknown enum tokens raise (here: return
`PErr.invalidEnum`). -/
def Agency.parse_agency_string (s : String) : Except PErr Agency :=
  let t := pyStripS s
  if ':' ∈ t.data then
    match pySplitS ':' t with
    | [type_val, name] => do
      let ty ← ofOption (AgencyType.ofString type_val) (.invalidEnum "AgencyType" type_val)
      .ok { name := name, type := ty }
    | [tier, top_tier_name, name] => do
      let ti ← ofOption (AgencyTier.ofString tier) (.invalidEnum "AgencyTier" tier)
      .ok { name := name, tier := ti, top_tier_name := some top_tier_name }
    | [type_val, tier, top_tier_name, name] => do
      let ty ← ofOption (AgencyType.ofString type_val) (.invalidEnum "AgencyType" type_val)
      let ti ← ofOption (AgencyTier.ofString tier) (.invalidEnum "AgencyTier" tier)
      .ok { name := name, type := ty, tier := ti, top_tier_name := some top_tier_name }
    | _ => .ok { name := t }
  else
    .ok { name := t }

/-- Grammar of agency strings as the specification states it, written
from the spec's words for comparison with the source parser: the number
of colon-separated parts of the (stripped) input selects the shape:
1 part ⇒ name only; 2 ⇒ `type:name`; 3 ⇒ `tier:top_tier_name:name`;
4 ⇒ `type:tier:top_tier_name:name`; anything else falls back to the
whole string as the name without raising; unknown `type`/`tier` tokens
fail with an invalid-enum error. -/
def agencyGrammarSpec (s : String) : Except PErr Agency :=
  let t := pyStripS s
  match pySplitS ':' t with
  | [n] => .ok { name := n }
  | [type_val, name] => do
    let ty ← ofOption (AgencyType.ofString type_val) (.invalidEnum "AgencyType" type_val)
    .ok { name := name, type := ty }
  | [tier, top_tier_name, name] => do
    let ti ← ofOption (AgencyTier.ofString tier) (.invalidEnum "AgencyTier" tier)
    .ok { name := name, tier := ti, top_tier_name := some top_tier_name }
  | [type_val, tier, top_tier_name, name] => do
    let ty ← ofOption (AgencyType.ofString type_val) (.invalidEnum "AgencyType" type_val)
    let ti ← ofOption (AgencyTier.ofString tier) (.invalidEnum "AgencyTier" tier)
    .ok { name := name, type := ty, tier := ti, top_tier_name := some top_tier_name }
  | _ => .ok { name := t }

theorem pySplitS_ne_nil (sep : Char) (s : String) : pySplitS sep s ≠ [] := by
  intro h
  exact pySplit_ne_nil sep s.data (by simpa [pySplitS] using h)

theorem pySplit_singleton_inv (sep : Char) (l x : List Char)
    (h : pySplit sep l = [x]) : x = l := by
  induction l generalizing x with
  | nil =>
    simp only [pySplit, List.cons_eq_cons] at h
    exact h.1.symm
  | cons c cs ih =>
    simp only [pySplit] at h
    rcases hs : pySplit sep cs with _ | ⟨h', t⟩
    · exact absurd hs (pySplit_ne_nil sep cs)
    · rw [hs] at h
      by_cases hc : c = sep
      · simp [hc] at h
      · simp only [if_neg hc, List.cons_eq_cons] at h
        obtain ⟨h1, h2⟩ := h
        have hh : h' = cs := ih h' (by rw [hs, h2])
        rw [← h1, hh]

theorem pySplitS_eq_singleton (sep : Char) (s : String) (n : String)
    (h : pySplitS sep s = [n]) : n = s ∧ sep ∉ s.data := by
  simp only [pySplitS] at h
  rcases hp : pySplit sep s.data with _ | ⟨a, t⟩
  · exact absurd hp (pySplit_ne_nil sep s.data)
  · rw [hp] at h
    simp only [List.map_cons, List.cons_eq_cons] at h
    obtain ⟨ha, ht⟩ := h
    have ht' : t = [] := by
      cases t with
      | nil => rfl
      | cons x xs => simp at ht
    have han : a = s.data := by
      refine pySplit_singleton_inv sep s.data a ?_
      rw [hp, ht']
    have hns : n = s := by
      have hd : n.data = s.data := by rw [← congrArg String.data ha, han]
      cases n; cases s; simp only at hd; rw [hd]
    refine ⟨hns, (pySplit_eq_singleton_iff sep s.data).mp ?_⟩
    rw [hp, ht', han]

/-- Claim C3: `Agency.parse_agency_string` is total (it is a Lean
function) and agrees with the colon grammar of the specification on
every input string: 1 colon-separated part yields the whole (stripped)
string as name with default type/tier; 2, 3, 4 parts are read as
`type:name`, `tier:top_tier_name:name`, `type:tier:top_tier_name:name`
respectively, failing with an invalid-enum error on unknown tokens; 5 or
more parts fall back to the whole string as name without failing. -/
theorem C3_agency_string_grammar (s : String) :
    Agency.parse_agency_string s = agencyGrammarSpec s := by
  by_cases hm : ':' ∈ (pyStripS s).data
  · have hlen : 2 ≤ (pySplitS ':' (pyStripS s)).length := by
      simpa [pySplitS] using pySplit_mem_two_le ':' (pyStripS s).data hm
    rcases hp : pySplitS ':' (pyStripS s) with _ | ⟨a, _ | ⟨b, _ | ⟨c, _ | ⟨d, rest⟩⟩⟩⟩
    · exact absurd hp (pySplitS_ne_nil ':' (pyStripS s))
    · rw [hp] at hlen; simp at hlen
    · simp [Agency.parse_agency_string, agencyGrammarSpec, hm, hp]
    · simp [Agency.parse_agency_string, agencyGrammarSpec, hm, hp]
    · cases rest <;> simp [Agency.parse_agency_string, agencyGrammarSpec, hm, hp]
  · obtain ⟨p, hp⟩ : ∃ p, pySplit ':' (pyStripS s).data = [p] ∧ p = (pyStripS s).data :=
      ⟨(pyStripS s).data, (pySplit_eq_singleton_iff ':' (pyStripS s).data).mpr hm, rfl⟩
    have hps : pySplitS ':' (pyStripS s) = [pyStripS s] := by
      simp [pySplitS, hp.1, hp.2]
    simp [Agency.parse_agency_string, agencyGrammarSpec, hm, hps]

/-- Sanity example from the spec: the four-part agency string used in the
end-to-end test parses to the expected record. -/
example :
    Agency.parse_agency_string
      "awarding:toptier:Department of Defense:Department of Defense" =
    .ok { name := "Department of Defense", type := .awarding, tier := .toptier,
          top_tier_name := some "Department of Defense" } := by rfl

/-! ## Numeric parsing (Python `float(...)` and `int(...)`)

Python floats are modelled as `ℚ`: the source only parses decimal
literals and re-serializes them, so no floating-point rounding is
observable.  The grammar accepted here is the decimal-literal part of
Python's `float()` (optional surrounding whitespace, optional sign,
digits with optional fraction and exponent); the special forms
`inf`/`nan` and underscore separators are not modelled. -/

/-- Numeric value of a digit list (most significant first). -/
def digitsVal (ds : List Char) : ℕ :=
  ds.foldl (fun a c => 10 * a + (c.toNat - 48)) 0

/-- Python `float(s)` on a decimal literal, as a rational.  The value
`sign * (intpart.fracpart) * 10^(esign*edigits)` is assembled with
integer arithmetic and one `mkRat`, which is the exact rational the
literal denotes. -/
def pyFloat (s : String) : Option ℚ :=
  let l := pyStrip s.data
  let signRest : ℤ × List Char :=
    match l with
    | '+' :: r => (1, r)
    | '-' :: r => (-1, r)
    | _ => (1, l)
  let sgn := signRest.1
  let ipRest := signRest.2.span Char.isDigit
  let ip := ipRest.1
  let fpRest : List Char × List Char :=
    match ipRest.2 with
    | '.' :: r => r.span Char.isDigit
    | _ => ([], ipRest.2)
  let fp := fpRest.1
  let rest :=
    match ipRest.2 with
    | '.' :: _ => fpRest.2
    | _ => ipRest.2
  if ip.isEmpty && fp.isEmpty then none
  else
    let mantNum : ℤ := sgn * ((digitsVal ip : ℤ) * 10 ^ fp.length + (digitsVal fp : ℤ))
    let mantDen : ℕ := 10 ^ fp.length
    match rest with
    | [] => some (mkRat mantNum mantDen)
    | e :: r =>
      if e = 'e' ∨ e = 'E' then
        let esignRest : Bool × List Char :=
          match r with
          | '+' :: r2 => (false, r2)
          | '-' :: r2 => (true, r2)
          | _ => (false, r)
        let edRest := esignRest.2.span Char.isDigit
        if edRest.1.isEmpty || !edRest.2.isEmpty then none
        else
          let ex := digitsVal edRest.1
          if esignRest.1 then some (mkRat mantNum (mantDen * 10 ^ ex))
          else some (mkRat (mantNum * 10 ^ ex) mantDen)
      else none

/-- Python `int(s)`: optional surrounding whitespace, optional sign,
one or more digits (underscore separators not modelled). -/
def pyInt (s : String) : Option ℤ :=
  let l := pyStrip s.data
  let signRest : ℤ × List Char :=
    match l with
    | '+' :: r => (1, r)
    | '-' :: r => (-1, r)
    | _ => (1, l)
  let dsRest := signRest.2.span Char.isDigit
  if dsRest.1.isEmpty || !dsRest.2.isEmpty then none
  else some (signRest.1 * (digitsVal dsRest.1 : ℤ))

example : pyFloat "1000" = some (mkRat 1000 1) := by rfl
example : pyFloat "-1.5" = some (mkRat (-3) 2) := by rfl
example : pyFloat "2e3" = some (mkRat 2000 1) := by rfl
example : pyFloat "abc" = none := by rfl
example : pyInt "42" = some 42 := by rfl
example : pyInt "4x" = none := by rfl

/-! ## Award amount parsing (`award_spending_models.py`) -/

/-- The `AwardAmount` pydantic model: optional lower / upper bounds. -/
structure AwardAmount where
  lower_bound : Option ℚ := none
  upper_bound : Option ℚ := none
  deriving DecidableEq, Repr

/-- One iteration of the `award_amounts` loop in
`AwardSearchRequest.from_params`: strip the token; if it contains a `-`,
split on the first `-`; an empty side gives `None`, a non-empty side is
passed to `float(...)` (raising `InvalidNumber` on failure); a token
without `-` is skipped (`.ok none`). -/
def parseAmountToken (tok : String) : Except PErr (Option AwardAmount) :=
  let t := pyStrip tok.data
  if '-' ∈ t then
    match pySplit1 '-' t with
    | p :: q :: _ => do
      let lower ←
        if p.isEmpty then .ok none
        else (ofOption (pyFloat ⟨p⟩) (.invalidNumber ⟨p⟩)).map some
      let upper ←
        if q.isEmpty then .ok none
        else (ofOption (pyFloat ⟨q⟩) (.invalidNumber ⟨q⟩)).map some
      .ok (some { lower_bound := lower, upper_bound := upper })
    | _ => .ok none
  else
    .ok none

/-- `award_amounts` parsing from `AwardSearchRequest.from_params`:
split the input on `;` and process each token in order, collecting the
non-skipped tokens and stopping at the first failure. -/
def parseAwardAmounts (s : String) : Except PErr (List AwardAmount) := do
  let opts ← (pySplitS ';' s).mapM parseAmountToken
  .ok (opts.filterMap id)

/-- Behavior of a single amount-range token as the specification states
it, written from the spec's words for comparison with the source: the
stripped token is split on the first `-` into a pair of sides; each empty
side becomes `None` and each non-empty side becomes its float value,
failing with an invalid-number error on non-numeric text; a token that
does not split (no `-` present) is skipped. -/
def amountTokenSpec (tok : String) : Except PErr (Option AwardAmount) :=
  match pySplit1 '-' (pyStrip tok.data) with
  | [p, q] => do
    let lower ←
      if p.isEmpty then .ok none
      else (ofOption (pyFloat ⟨p⟩) (.invalidNumber ⟨p⟩)).map some
    let upper ←
      if q.isEmpty then .ok none
      else (ofOption (pyFloat ⟨q⟩) (.invalidNumber ⟨q⟩)).map some
    .ok (some { lower_bound := lower, upper_bound := upper })
  | _ => .ok none

theorem pySplit1_length_le (sep : Char) (l : List Char) :
    (pySplit1 sep l).length ≤ 2 := by
  induction l with
  | nil => simp [pySplit1]
  | cons c cs ih =>
    by_cases hc : c = sep
    · simp [pySplit1, hc]
    · simp only [pySplit1, if_neg hc]
      rcases hs : pySplit1 sep cs with _ | ⟨h', t⟩
      · simp
      · rw [hs] at ih
        simpa using ih

/-- Claim C8: every amount-range token is handled exactly as the spec's
grammar states: split on the first `-`, empty sides become `None`,
non-empty sides become their float value or fail with an invalid-number
error, and tokens containing no `-` are skipped. -/
theorem C8_amount_token_grammar (tok : String) :
    parseAmountToken tok = amountTokenSpec tok := by
  by_cases hm : '-' ∈ pyStrip tok.data
  · obtain ⟨p, q, hpq⟩ := pySplit1_of_mem '-' (pyStrip tok.data) hm
    simp [parseAmountToken, amountTokenSpec, hm, hpq]
  · have h1 : pySplit1 '-' (pyStrip tok.data) = [pyStrip tok.data] :=
      pySplit1_of_not_mem '-' (pyStrip tok.data) hm
    simp [parseAmountToken, amountTokenSpec, hm, h1]

/-- Sanity examples for the amount grammar. -/
example : parseAwardAmounts "1000-5000;10000-" =
    .ok [{ lower_bound := some (mkRat 1000 1), upper_bound := some (mkRat 5000 1) },
         { lower_bound := some (mkRat 10000 1), upper_bound := none }] := by rfl
example : parseAwardAmounts "-250" =
    .ok [{ lower_bound := none, upper_bound := some (mkRat 250 1) }] := by rfl
example : parseAwardAmounts "abc" = .ok [] := by rfl
example : parseAwardAmounts "12-x4" = .error (.invalidNumber "x4") := by rfl

/-! ## JSON values

`JValue` models the decoded JSON / Python dict-and-list values that the
request serializers produce and the tools manipulate.  Python `None` is
`JValue.null`; dicts are association lists in insertion order. -/

/-- A JSON value / Python object as used by the payload builders. -/
inductive JValue where
  | null
  | bool (b : Bool)
  | num (q : ℚ)
  | str (s : String)
  | arr (xs : List JValue)
  | obj (kvs : List (String × JValue))

/-- Python `v is None`. -/
def jIsNull : JValue → Bool
  | .null => true
  | _ => false

mutual

/-- `true` iff no `null` occurs anywhere in the value, at any nesting
depth (the property claimed of serialized payloads). -/
def jNoNull : JValue → Bool
  | .null => false
  | .bool _ => true
  | .num _ => true
  | .str _ => true
  | .arr xs => jNoNullList xs
  | .obj kvs => jNoNullKVs kvs

def jNoNullList : List JValue → Bool
  | [] => true
  | x :: xs => jNoNull x && jNoNullList xs

def jNoNullKVs : List (String × JValue) → Bool
  | [] => true
  | kv :: kvs => jNoNull kv.2 && jNoNullKVs kvs

end

/-- Python truthiness of a JSON value (`bool(v)`). -/
def jTruthy : JValue → Bool
  | .null => false
  | .bool b => b
  | .num q => q ≠ 0
  | .str s => s ≠ ""
  | .arr xs => !xs.isEmpty
  | .obj kvs => !kvs.isEmpty

/-- Python `d.get(k)` on a dict in insertion order. -/
def dictGet (d : List (String × JValue)) (k : String) : Option JValue :=
  match d with
  | [] => none
  | kv :: rest => if kv.1 = k then some kv.2 else dictGet rest k

/-- Python `d[k] = v`: overwrite in place if the key exists, else append. -/
def dictSet {β : Type} (d : List (String × β)) (k : String) (v : β) :
    List (String × β) :=
  match d with
  | [] => [(k, v)]
  | kv :: rest => if kv.1 = k then (kv.1, v) :: rest else kv :: dictSet rest k v

/-- Python truthiness of an optional list (`None` and `[]` are falsy). -/
def optListTruthy {α : Type} : Option (List α) → Bool
  | some (_ :: _) => true
  | _ => false

/-! ## Dates and `TimePeriod` (`common_models.py`) -/

/-- Days in a month, Gregorian calendar (as Python `datetime`). -/
def daysInMonth (y m : ℕ) : ℕ :=
  if m = 2 then
    if (y % 4 = 0 ∧ y % 100 ≠ 0) ∨ y % 400 = 0 then 29 else 28
  else if m = 4 ∨ m = 6 ∨ m = 9 ∨ m = 11 then 30 else 31

/-- `datetime.strptime(s, "%Y-%m-%d")`: a 4-digit year, then 1-2 digit
month and day separated by `-`, with the day validated against the
calendar (Python's `%m`/`%d` directives accept 1 or 2 digits and
`datetime(...)` then checks the real calendar range). -/
def parseDate (s : String) : Option (ℕ × ℕ × ℕ) :=
  match pySplit '-' s.data with
  | [ys, ms, ds] =>
    if ys.length = 4 ∧ ys.all Char.isDigit
        ∧ 1 ≤ ms.length ∧ ms.length ≤ 2 ∧ ms.all Char.isDigit
        ∧ 1 ≤ ds.length ∧ ds.length ≤ 2 ∧ ds.all Char.isDigit then
      let y := digitsVal ys
      let m := digitsVal ms
      let d := digitsVal ds
      if 1 ≤ y ∧ 1 ≤ m ∧ m ≤ 12 ∧ 1 ≤ d ∧ d ≤ daysInMonth y m then
        some (y, m, d)
      else none
    else none
  | _ => none

/-- Lexicographic comparison of parsed dates (`start <= end`). -/
def dateLe (a b : ℕ × ℕ × ℕ) : Bool :=
  a.1 < b.1 ∨ (a.1 = b.1 ∧ (a.2.1 < b.2.1 ∨ (a.2.1 = b.2.1 ∧ a.2.2 ≤ b.2.2)))

/-- The `TimePeriod` pydantic model (two `YYYY-MM-DD` strings). -/
structure TimePeriod where
  start_date : String
  end_date : String
  deriving DecidableEq, Repr

/-- Validated construction of `TimePeriod`: both dates must parse with
`%Y-%m-%d` and the start must not exceed the end (the model's
`validate_date_format` and `validate_date_range` validators). -/
def TimePeriod.create (sd ed : String) : Except PErr TimePeriod :=
  match parseDate sd with
  | none => .error (.invalidDate sd)
  | some a =>
    match parseDate ed with
    | none => .error (.invalidDate ed)
    | some b => if dateLe a b then .ok ⟨sd, ed⟩ else .error .dateOrder

/-- `TimePeriod.dict()`: both fields, in declaration order. -/
def TimePeriod.toDict (tp : TimePeriod) : JValue :=
  .obj [("start_date", .str tp.start_date), ("end_date", .str tp.end_date)]

/-! ## Pagination (`common_models.py`) -/

/-- `BasePagination`: `page >= 1`, `1 <= limit <= 100`, order. -/
structure BasePagination where
  page : ℤ
  limit : ℤ
  order : SortOrder
  deriving DecidableEq, Repr

/-- Validated construction of `BasePagination` (the `ge`/`le` bounds of
its pydantic fields). -/
def BasePagination.create (page limit : ℤ) (order : SortOrder) :
    Except PErr BasePagination :=
  if 1 ≤ page ∧ 1 ≤ limit ∧ limit ≤ 100 then .ok ⟨page, limit, order⟩
  else .error .paginationRange

/-! ## Award search request (`award_spending_models.py`) -/

/-- `ProgramActivityObject`: optional `name` and `code`. -/
structure ProgramActivityObject where
  name : Option String := none
  code : Option String := none
  deriving DecidableEq, Repr

/-- `AwardSearchFilters` (the base filters plus award-specific ones). -/
structure AwardSearchFilters where
  time_period : List TimePeriod
  award_type_codes : Option (List AwardTypeCode) := none
  agencies : Option (List Agency) := none
  recipient_search_text : Option (List String) := none
  award_ids : Option (List String) := none
  keywords : Option (List String) := none
  award_amounts : Option (List AwardAmount) := none
  program_activities : Option (List ProgramActivityObject) := none
  deriving DecidableEq, Repr

/-- The default `fields` list of `AwardSearchRequest`. -/
def defaultAwardFields : List String :=
  ["Award ID", "Recipient Name", "Start Date", "End Date", "Award Amount",
   "Awarding Agency", "Awarding Sub Agency", "Award Type"]

/-- `AwardSearchRequest`. -/
structure AwardSearchRequest where
  filters : AwardSearchFilters
  fields : List String := defaultAwardFields
  sort : Option String := none
  subawards : Bool := false
  pagination : BasePagination
  deriving DecidableEq, Repr

/-- The boolean-string conversion used for `subawards` in `from_params`
(`str(x).lower() in ("true", "1", "yes", "on")`). -/
def parseBoolParam (s : String) : Bool :=
  ["true", "1", "yes", "on"].contains (pyLower s)

/-- One `program_activities` entry: `name, *code = entry.split("|")`;
an empty (falsy) name becomes `None`, the code is taken from the part
after the first `|` when present. -/
def parseProgramActivityEntry (entry : String) : ProgramActivityObject :=
  let parts := pySplitS '|' entry
  let name := parts.headD ""
  { name := if name = "" then none else some (pyStripS name)
    code := (parts.drop 1).head?.map pyStripS }

/-- `AwardSearchRequest.from_params`, with the source's defaults. -/
def AwardSearchRequest.from_params
    (award_type_codes : String)
    (start_date : String := "2023-10-01")
    (end_date : String := "2024-09-30")
    (agencies : Option String := none)
    (program_activities : Option String := none)
    (recipients : Option String := none)
    (award_ids : Option String := none)
    (keywords : Option String := none)
    (award_amounts : Option String := none)
    (fields : Option String := none)
    (subawards : String := "false")
    (page : String := "1")
    (limit : String := "10")
    (sort : Option String := none)
    (order : String := "desc") :
    Except PErr AwardSearchRequest :=
  Except.bind (ofOption (pyInt page) (.invalidInt page)) fun page_int =>
  Except.bind (ofOption (pyInt limit) (.invalidInt limit)) fun limit_int =>
  Except.bind ((pySplitS ',' award_type_codes).mapM
    (fun code => ofOption (AwardTypeCode.ofString (pyStripS code))
      (.invalidEnum "AwardTypeCode" (pyStripS code)))) fun award_types =>
  Except.bind
    (if optStrTruthy agencies then
      (pySplitS ',' (agencies.getD "")).mapM Agency.parse_agency_string
     else .ok []) fun agency_objects =>
  Except.bind
    (if optStrTruthy award_amounts then
      Except.map some (parseAwardAmounts (award_amounts.getD ""))
     else .ok none) fun award_amount_list =>
  Except.bind (TimePeriod.create start_date end_date) fun tp =>
  Except.bind (ofOption (SortOrder.ofString order) (.invalidEnum "SortOrder" order)) fun ord =>
  Except.bind (BasePagination.create page_int limit_int ord) fun pagination =>
  .ok {
    filters := {
      time_period := [tp]
      award_type_codes := some award_types
      agencies := if agency_objects.isEmpty then none else some agency_objects
      recipient_search_text :=
        if optStrTruthy recipients then
          some ((pySplitS ',' (recipients.getD "")).map pyStripS)
        else none
      award_ids :=
        if optStrTruthy award_ids then
          some ((pySplitS ',' (award_ids.getD "")).map pyStripS)
        else none
      keywords :=
        if optStrTruthy keywords then
          some ((pySplitS ',' (keywords.getD "")).map pyStripS)
        else none
      award_amounts := award_amount_list
      program_activities :=
        if optStrTruthy program_activities then
          some ((pySplitS ';' (program_activities.getD "")).map parseProgramActivityEntry)
        else none }
    fields := match (if optStrTruthy fields then
        some ((pySplitS ',' (fields.getD "")).map pyStripS) else none) with
      | some l => if l.isEmpty then defaultAwardFields else l
      | none => defaultAwardFields
    sort := sort
    subawards := parseBoolParam subawards
    pagination := pagination }

/-- `None`-or-string as a JSON value. -/
def jOptStr : Option String → JValue
  | some s => .str s
  | none => .null

/-- `None`-or-number as a JSON value. -/
def jOptNum : Option ℚ → JValue
  | some q => .num q
  | none => .null

/-- `Agency.model_dump(exclude_none=True)`: fields in declaration order,
omitting `top_tier_name` when it is `None`. -/
def Agency.model_dump_exclude_none (a : Agency) : JValue :=
  .obj ([("name", .str a.name), ("type", .str a.type.value),
         ("tier", .str a.tier.value)] ++
    (match a.top_tier_name with
     | some t => [("top_tier_name", .str t)]
     | none => []))

/-- `AwardAmount.dict()`: both fields, `None` serialized as `null`. -/
def AwardAmount.toDict (a : AwardAmount) : JValue :=
  .obj [("lower_bound", jOptNum a.lower_bound),
        ("upper_bound", jOptNum a.upper_bound)]

/-- `ProgramActivityObject.dict()`: both fields, `None` serialized as
`null`. -/
def ProgramActivityObject.toDict (pa : ProgramActivityObject) : JValue :=
  .obj [("name", jOptStr pa.name), ("code", jOptStr pa.code)]

/-- `AwardSearchRequest.to_api_payload`: builds the payload dict with the
nested `filters` dict, adds the optional entries guarded by Python
truthiness, then removes `None`-valued keys from `filters` and from the
top level (and only there). -/
def AwardSearchRequest.to_api_payload (r : AwardSearchRequest) :
    List (String × JValue) :=
  let filters0 : List (String × JValue) :=
    [("time_period", .arr (r.filters.time_period.map TimePeriod.toDict)),
     ("award_type_codes",
       match r.filters.award_type_codes with
       | some codes =>
         if codes.isEmpty then .null
         else .arr (codes.map fun c => .str c.value)
       | none => .null)]
  let filters1 := filters0
    ++ (if optListTruthy r.filters.agencies then
          [("agencies",
            .arr ((r.filters.agencies.getD []).map Agency.model_dump_exclude_none))]
        else [])
    ++ (if optListTruthy r.filters.recipient_search_text then
          [("recipient_search_text",
            .arr ((r.filters.recipient_search_text.getD []).map JValue.str))]
        else [])
    ++ (if optListTruthy r.filters.award_ids then
          [("award_ids", .arr ((r.filters.award_ids.getD []).map JValue.str))]
        else [])
    ++ (if optListTruthy r.filters.keywords then
          [("keywords", .arr ((r.filters.keywords.getD []).map JValue.str))]
        else [])
    ++ (if optListTruthy r.filters.award_amounts then
          [("award_amounts",
            .arr ((r.filters.award_amounts.getD []).map AwardAmount.toDict))]
        else [])
    ++ (if optListTruthy r.filters.program_activities then
          [("program_activities",
            .arr ((r.filters.program_activities.getD []).map ProgramActivityObject.toDict))]
        else [])
  let filters2 := filters1.filter fun kv => !(jIsNull kv.2)
  let payload : List (String × JValue) :=
    [("subawards", .bool r.subawards),
     ("page", .num (r.pagination.page : ℚ)),
     ("limit", .num (r.pagination.limit : ℚ)),
     ("order", .str r.pagination.order.value),
     ("fields", .arr (r.fields.map JValue.str)),
     ("filters", .obj filters2)]
    ++ (if optStrTruthy r.sort then [("sort", .str (r.sort.getD ""))] else [])
  payload.filter fun kv => !(jIsNull kv.2)

/-! ## Claim C1: null-freedom of the serialized award payload -/

/-- Checker for the amended C1 property: no `null` at the top level of
the payload, none at the top level of the `filters` object, and no
`null` anywhere below any `filters` entry other than `award_amounts`
and `program_activities`. -/
def payloadNoNullOutsideAmountLists (p : List (String × JValue)) : Bool :=
  p.all fun kv =>
    !(jIsNull kv.2) &&
    (if kv.1 = "filters" then
       match kv.2 with
       | .obj fl =>
         fl.all fun fkv =>
           !(jIsNull fkv.2) &&
           (decide (fkv.1 = "award_amounts") || decide (fkv.1 = "program_activities")
             || jNoNull fkv.2)
       | _ => true
     else true)

theorem jNoNullList_map {α : Type} (f : α → JValue) (l : List α)
    (h : ∀ a ∈ l, jNoNull (f a) = true) : jNoNullList (l.map f) = true := by
  induction l with
  | nil => rfl
  | cons x xs ih =>
    simp only [List.map_cons, jNoNullList, Bool.and_eq_true]
    exact ⟨h x (by simp), ih fun a ha => h a (by simp [ha])⟩

theorem jNoNull_tpDict (tp : TimePeriod) : jNoNull tp.toDict = true := rfl

theorem jNoNull_agency_dump (a : Agency) :
    jNoNull a.model_dump_exclude_none = true := by
  cases h : a.top_tier_name <;>
    simp [Agency.model_dump_exclude_none, h, jNoNull, jNoNullKVs]

/-- Every `AwardSearchRequest` serializes with no `null` at the top
level, none at the top level of `filters`, and no `null` below any
`filters` entry except inside `award_amounts` / `program_activities`
elements (those serialize absent bounds as `null`). -/
theorem jNoNull_arr (xs : List JValue) : jNoNull (.arr xs) = jNoNullList xs := by
  simp [jNoNull]

theorem awardPayload_noNull_outside_amount_lists (r : AwardSearchRequest) :
    payloadNoNullOutsideAmountLists r.to_api_payload = true := by
  unfold payloadNoNullOutsideAmountLists AwardSearchRequest.to_api_payload
  rw [List.all_eq_true]
  intro kv hkv
  rw [List.mem_filter] at hkv
  obtain ⟨hmem, hpred⟩ := hkv
  simp only [Bool.and_eq_true]
  refine ⟨hpred, ?_⟩
  rcases List.mem_append.mp hmem with hmain | hsort
  · simp only [List.mem_cons, List.mem_singleton] at hmain
    rcases hmain with rfl | rfl | rfl | rfl | rfl | rfl | hfalse
    · simp
    · simp
    · simp
    · simp
    · simp
    · -- the ("filters", .obj filters2) entry
      simp only [if_true, List.all_eq_true]
      intro fkv hfkv
      rw [List.mem_filter] at hfkv
      obtain ⟨hfmem, hfpred⟩ := hfkv
      simp only [Bool.and_eq_true]
      refine ⟨hfpred, ?_⟩
      rcases List.mem_append.mp hfmem with h6 | hpa
      rcases List.mem_append.mp h6 with h5 | haa
      rcases List.mem_append.mp h5 with h4 | hkw
      rcases List.mem_append.mp h4 with h3 | hai
      rcases List.mem_append.mp h3 with h2 | hrs
      rcases List.mem_append.mp h2 with h1 | hag
      · -- the two entries of the initial filters dict
        simp only [List.mem_cons, List.mem_singleton] at h1
        rcases h1 with rfl | rfl | hfalse
        · have : jNoNullList (r.filters.time_period.map TimePeriod.toDict) = true :=
            jNoNullList_map _ _ fun tp _ => jNoNull_tpDict tp
          simp [jNoNull_arr, this]
        · rcases hc : r.filters.award_type_codes with _ | codes
          · rw [hc] at hfpred
            simp [jIsNull] at hfpred
          · rw [hc] at hfpred
            by_cases he : codes.isEmpty = true
            · simp [he, jIsNull] at hfpred
            · have : jNoNullList (codes.map fun c => JValue.str c.value) = true :=
                jNoNullList_map _ _ fun c _ => rfl
              simp [he, jNoNull_arr, this]
        · simp at hfalse
      · -- agencies block
        rcases hc : optListTruthy r.filters.agencies
        · rw [hc] at hag
          simp at hag
        · rw [hc] at hag
          simp only [if_true, List.mem_singleton] at hag
          subst hag
          have : jNoNullList ((r.filters.agencies.getD []).map
              Agency.model_dump_exclude_none) = true :=
            jNoNullList_map _ _ fun a _ => jNoNull_agency_dump a
          simp [jNoNull_arr, this]
      · -- recipient_search_text block
        rcases hc : optListTruthy r.filters.recipient_search_text
        · rw [hc] at hrs
          simp at hrs
        · rw [hc] at hrs
          simp only [if_true, List.mem_singleton] at hrs
          subst hrs
          have : jNoNullList ((r.filters.recipient_search_text.getD []).map
              JValue.str) = true := jNoNullList_map _ _ fun a _ => rfl
          simp [jNoNull_arr, this]
      · -- award_ids block
        rcases hc : optListTruthy r.filters.award_ids
        · rw [hc] at hai
          simp at hai
        · rw [hc] at hai
          simp only [if_true, List.mem_singleton] at hai
          subst hai
          have : jNoNullList ((r.filters.award_ids.getD []).map JValue.str) = true :=
            jNoNullList_map _ _ fun a _ => rfl
          simp [jNoNull_arr, this]
      · -- keywords block
        rcases hc : optListTruthy r.filters.keywords
        · rw [hc] at hkw
          simp at hkw
        · rw [hc] at hkw
          simp only [if_true, List.mem_singleton] at hkw
          subst hkw
          have : jNoNullList ((r.filters.keywords.getD []).map JValue.str) = true :=
            jNoNullList_map _ _ fun a _ => rfl
          simp [jNoNull_arr, this]
      · -- award_amounts block: one of the two excluded keys
        rcases hc : optListTruthy r.filters.award_amounts
        · rw [hc] at haa
          simp at haa
        · rw [hc] at haa
          simp only [if_true, List.mem_singleton] at haa
          subst haa
          simp
      · -- program_activities block: the other excluded key
        rcases hc : optListTruthy r.filters.program_activities
        · rw [hc] at hpa
          simp at hpa
        · rw [hc] at hpa
          simp only [if_true, List.mem_singleton] at hpa
          subst hpa
          simp
    · simp at hfalse
  · -- optional trailing "sort" entry
    rcases hc : optStrTruthy r.sort
    · rw [hc] at hsort
      simp at hsort
    · rw [hc] at hsort
      simp only [if_true, List.mem_singleton] at hsort
      subst hsort
      simp

/-- Claim C1, counterexample: the request built from
`award_type_codes="A"` with `award_amounts="1000-"` (an open upper
bound) serializes to a payload that does contain a `null` value — the
`upper_bound` of the `award_amounts` element is emitted as `null`
because the source serializes amounts with `.dict()` instead of
`exclude_none`.  So the claimed payload-wide null-freedom is false. -/
theorem C1_counterexample_null_in_payload :
    (AwardSearchRequest.from_params "A" "2023-10-01" "2024-09-30" none none none none none
        (some "1000-") none "false" "1" "10" none "desc").map
      (fun r => jNoNull (.obj r.to_api_payload)) = .ok false := by rfl

/-- Claim C1 (amended): for every award search request successfully
built by `from_params`, the serialized payload contains no `null` at the
top level, none at the top level of the `filters` object, and none
anywhere below any `filters` entry except inside the elements of
`award_amounts` and `program_activities`, whose absent sides are
serialized as `null`. -/
theorem C1_payload_noNull_outside_amount_lists
    (award_type_codes start_date end_date : String)
    (agencies program_activities recipients award_ids keywords
      award_amounts fields : Option String)
    (subawards page limit : String) (sort : Option String) (order : String)
    (r : AwardSearchRequest)
    (_h : AwardSearchRequest.from_params award_type_codes start_date end_date agencies
        program_activities recipients award_ids keywords award_amounts fields
        subawards page limit sort order = .ok r) :
    payloadNoNullOutsideAmountLists r.to_api_payload = true :=
  awardPayload_noNull_outside_amount_lists r

/-- A concrete successfully-built request, used to witness the amended
C1 theorem. -/
def awardReqC1Witness : AwardSearchRequest :=
  match AwardSearchRequest.from_params "A" "2023-10-01" "2024-09-30"
      (some "awarding:NASA") (some "Edu|101") none none none (some "1000-") none
      "false" "1" "10" none "desc" with
  | .ok r => r
  | .error _ => { filters := { time_period := [] }, pagination := ⟨1, 10, .desc⟩ }

/-- Witness for the amended C1 theorem at a concrete input. -/
theorem C1_payload_noNull_outside_amount_lists_witness :
    AwardSearchRequest.from_params "A" "2023-10-01" "2024-09-30"
        (some "awarding:NASA") (some "Edu|101") none none none (some "1000-") none
        "false" "1" "10" none "desc" = .ok awardReqC1Witness ∧
    payloadNoNullOutsideAmountLists awardReqC1Witness.to_api_payload = true :=
  ⟨by rfl,
   C1_payload_noNull_outside_amount_lists "A" "2023-10-01" "2024-09-30"
     (some "awarding:NASA") (some "Edu|101") none none none (some "1000-") none
     "false" "1" "10" none "desc" awardReqC1Witness (by rfl)⟩

/-! ## Geography search request (`geography_spending_models.py`) -/

/-- `GeographicScope` enumeration. -/
inductive GeographicScope where
  | place_of_performance | recipient_location
  deriving DecidableEq, Repr

def GeographicScope.value : GeographicScope → String
  | .place_of_performance => "place_of_performance"
  | .recipient_location => "recipient_location"

/-- `GeographicScope(s)` lookup. -/
def GeographicScope.ofString (s : String) : Option GeographicScope :=
  if s = "place_of_performance" then some .place_of_performance
  else if s = "recipient_location" then some .recipient_location
  else none

/-- `GeographicLayer` enumeration. -/
inductive GeographicLayer where
  | state | county | district | zip
  deriving DecidableEq, Repr

def GeographicLayer.value : GeographicLayer → String
  | .state => "state"
  | .county => "county"
  | .district => "district"
  | .zip => "zip"

/-- `GeographicLayer(s)` lookup. -/
def GeographicLayer.ofString (s : String) : Option GeographicLayer :=
  if s = "state" then some .state
  else if s = "county" then some .county
  else if s = "district" then some .district
  else if s = "zip" then some .zip
  else none

/-- Python `str.isalpha()` restricted to ASCII letters (the geo codes the
source validates are ASCII). -/
def pyIsAlpha (s : String) : Bool :=
  !s.data.isEmpty && s.data.all Char.isAlpha

/-- Python `str.isdigit()` restricted to ASCII digits. -/
def pyIsDigit (s : String) : Bool :=
  !s.data.isEmpty && s.data.all Char.isDigit

/-- Shape check of one geo filter code for a layer, from the
`validate_geo_filters` validator of `GeographySearchRequest`. -/
def geoCodeOk (layer : GeographicLayer) (code : String) : Bool :=
  match layer with
  | .state => code.data.length = 2 && (pyIsAlpha code || pyIsDigit code)
  | .county => code.data.length = 5 && pyIsDigit code
  | .zip => code.data.length = 5 && pyIsDigit code
  | .district =>
    code.data.length ≥ 4 && pyIsAlpha ⟨code.data.take 2⟩ && pyIsDigit ⟨code.data.drop 2⟩

/-- `GeographySearchFilters` is `BaseSearchFilters` unchanged. -/
structure GeographySearchFilters where
  time_period : List TimePeriod
  award_type_codes : Option (List AwardTypeCode) := none
  agencies : Option (List Agency) := none
  recipient_search_text : Option (List String) := none
  deriving DecidableEq, Repr

/-- `GeographySearchRequest`. -/
structure GeographySearchRequest where
  scope : GeographicScope
  geo_layer : GeographicLayer
  geo_layer_filters : List String
  filters : GeographySearchFilters
  sort : String := "aggregated_amount"
  subawards : Bool := false
  pagination : BasePagination
  deriving DecidableEq, Repr

/-- `GeographySearchRequest.from_params`, including the
`validate_geo_filters` validator run at construction. -/
def GeographySearchRequest.from_params
    (scope : String)
    (geo_layer : String)
    (geo_layer_filters : String)
    (award_types : Option String := none)
    (agencies : Option String := none)
    (recipients : Option String := none)
    (start_date : String := "2023-10-01")
    (end_date : String := "2024-09-30")
    (subawards : String := "false")
    (page : String := "1")
    (limit : String := "100")
    (sort : String := "aggregated_amount")
    (order : String := "desc") :
    Except PErr GeographySearchRequest :=
  Except.bind (ofOption (pyInt page) (.invalidInt page)) fun page_int =>
  Except.bind (ofOption (pyInt limit) (.invalidInt limit)) fun limit_int =>
  Except.bind
    (if optStrTruthy award_types then
      Except.map some ((pySplitS ',' (award_types.getD "")).mapM
        (fun code => ofOption (AwardTypeCode.ofString (pyStripS code))
          (.invalidEnum "AwardTypeCode" (pyStripS code))))
     else .ok none) fun award_type_list =>
  Except.bind
    (if optStrTruthy agencies then
      (pySplitS ',' (agencies.getD "")).mapM Agency.parse_agency_string
     else .ok []) fun agency_objects =>
  Except.bind (TimePeriod.create start_date end_date) fun tp =>
  Except.bind (ofOption (SortOrder.ofString order) (.invalidEnum "SortOrder" order)) fun ord =>
  Except.bind (BasePagination.create page_int limit_int ord) fun pagination =>
  Except.bind (ofOption (GeographicScope.ofString scope)
    (.invalidEnum "GeographicScope" scope)) fun scope_val =>
  Except.bind (ofOption (GeographicLayer.ofString geo_layer)
    (.invalidEnum "GeographicLayer" geo_layer)) fun layer_val =>
  match ((pySplitS ',' geo_layer_filters).map pyStripS).find?
      (fun code => !(geoCodeOk layer_val code)) with
  | some bad => .error (.invalidGeoFilter layer_val.value bad)
  | none =>
    .ok {
      scope := scope_val
      geo_layer := layer_val
      geo_layer_filters := (pySplitS ',' geo_layer_filters).map pyStripS
      filters := {
        time_period := [tp]
        award_type_codes := award_type_list
        agencies := some agency_objects
        recipient_search_text :=
          if optStrTruthy recipients then
            some ((pySplitS ',' (recipients.getD "")).map pyStripS)
          else none }
      sort := sort
      subawards := parseBoolParam subawards
      pagination := pagination }

/-- `GeographySearchRequest.to_api_payload`: conditional `filters`
entries guarded by Python truthiness, then the flat payload; this
serializer performs no `None` filtering. -/
def GeographySearchRequest.to_api_payload (r : GeographySearchRequest) :
    List (String × JValue) :=
  let filters : List (String × JValue) :=
    (if !r.filters.time_period.isEmpty then
      [("time_period", .arr (r.filters.time_period.map TimePeriod.toDict))]
     else [])
    ++ (if optListTruthy r.filters.award_type_codes then
          [("award_type_codes",
            .arr ((r.filters.award_type_codes.getD []).map fun c => .str c.value))]
        else [])
    ++ (if optListTruthy r.filters.agencies then
          [("agencies",
            .arr ((r.filters.agencies.getD []).map Agency.model_dump_exclude_none))]
        else [])
    ++ (if optListTruthy r.filters.recipient_search_text then
          [("recipient_search_text",
            .arr ((r.filters.recipient_search_text.getD []).map JValue.str))]
        else [])
  [("scope", .str r.scope.value),
   ("geo_layer", .str r.geo_layer.value),
   ("geo_layer_filters", .arr (r.geo_layer_filters.map JValue.str)),
   ("subawards", .bool r.subawards),
   ("page", .num (r.pagination.page : ℚ)),
   ("limit", .num (r.pagination.limit : ℚ)),
   ("sort", .str r.sort),
   ("order", .str r.pagination.order.value),
   ("filters", .obj filters)]

/-! ## Claim C10: the serialized filters always carry a time period -/

/-- Inversion of a successful `Except.bind`. -/
theorem exceptBind_ok {ε α β : Type} {x : Except ε α} {f : α → Except ε β} {v : β}
    (h : Except.bind x f = .ok v) : ∃ w, x = .ok w ∧ f w = .ok v := by
  cases x with
  | error err => simp [Except.bind] at h
  | ok w => exact ⟨w, rfl, by simpa [Except.bind] using h⟩

/-- Checker: the payload has a `filters` object whose `time_period`
entry is a non-empty array. -/
def payloadHasNonemptyTimePeriod (p : List (String × JValue)) : Bool :=
  match dictGet p "filters" with
  | some (.obj fl) =>
    match dictGet fl "time_period" with
    | some (.arr (_ :: _)) => true
    | _ => false
  | _ => false

theorem awardFromParams_time_period_ne_nil
    (award_type_codes start_date end_date : String)
    (agencies program_activities recipients award_ids keywords
      award_amounts fields : Option String)
    (subawards page limit : String) (sort : Option String) (order : String)
    (r : AwardSearchRequest)
    (h : AwardSearchRequest.from_params award_type_codes start_date end_date agencies
        program_activities recipients award_ids keywords award_amounts fields
        subawards page limit sort order = .ok r) :
    r.filters.time_period ≠ [] := by
  unfold AwardSearchRequest.from_params at h
  obtain ⟨pi, -, h⟩ := exceptBind_ok h
  obtain ⟨li, -, h⟩ := exceptBind_ok h
  obtain ⟨atys, -, h⟩ := exceptBind_ok h
  obtain ⟨agos, -, h⟩ := exceptBind_ok h
  obtain ⟨aal, -, h⟩ := exceptBind_ok h
  obtain ⟨tp, -, h⟩ := exceptBind_ok h
  obtain ⟨ord, -, h⟩ := exceptBind_ok h
  obtain ⟨pag, -, h⟩ := exceptBind_ok h
  have hr := Except.ok.inj h
  rw [← hr]
  simp

theorem geoFromParams_time_period_ne_nil
    (scope geo_layer geo_layer_filters : String)
    (award_types agencies recipients : Option String)
    (start_date end_date subawards page limit sort order : String)
    (g : GeographySearchRequest)
    (h : GeographySearchRequest.from_params scope geo_layer geo_layer_filters
        award_types agencies recipients start_date end_date subawards page limit
        sort order = .ok g) :
    g.filters.time_period ≠ [] := by
  unfold GeographySearchRequest.from_params at h
  obtain ⟨pi, -, h⟩ := exceptBind_ok h
  obtain ⟨li, -, h⟩ := exceptBind_ok h
  obtain ⟨atys, -, h⟩ := exceptBind_ok h
  obtain ⟨agos, -, h⟩ := exceptBind_ok h
  obtain ⟨tp, -, h⟩ := exceptBind_ok h
  obtain ⟨ord, -, h⟩ := exceptBind_ok h
  obtain ⟨pag, -, h⟩ := exceptBind_ok h
  obtain ⟨scv, -, h⟩ := exceptBind_ok h
  obtain ⟨lav, -, h⟩ := exceptBind_ok h
  split at h
  · simp at h
  · have hr := Except.ok.inj h
    rw [← hr]
    simp

theorem awardPayload_hasTimePeriod (r : AwardSearchRequest)
    (h : r.filters.time_period ≠ []) :
    payloadHasNonemptyTimePeriod r.to_api_payload = true := by
  rcases htp : r.filters.time_period with _ | ⟨tp, tps⟩
  · exact absurd htp h
  · unfold payloadHasNonemptyTimePeriod AwardSearchRequest.to_api_payload
    simp [dictGet, List.filter_append, List.filter, jIsNull, htp]

theorem geoPayload_hasTimePeriod (r : GeographySearchRequest)
    (h : r.filters.time_period ≠ []) :
    payloadHasNonemptyTimePeriod r.to_api_payload = true := by
  rcases htp : r.filters.time_period with _ | ⟨tp, tps⟩
  · exact absurd htp h
  · unfold payloadHasNonemptyTimePeriod GeographySearchRequest.to_api_payload
    simp [dictGet, List.filter_append, List.filter, jIsNull, htp]

/-- Claim C10: every award or geography request successfully built by
`from_params` serializes with a `filters` object containing a non-empty
`time_period` list; and when the caller supplies no `start_date` /
`end_date`, the defaults `2023-10-01` / `2024-09-30` are used silently
(shown by evaluating both builders with their date parameters omitted). -/
theorem C10_filters_always_contain_time_period
    (a_award_type_codes a_start_date a_end_date : String)
    (a_agencies a_program_activities a_recipients a_award_ids a_keywords
      a_award_amounts a_fields : Option String)
    (a_subawards a_page a_limit : String) (a_sort : Option String) (a_order : String)
    (r : AwardSearchRequest)
    (h1 : AwardSearchRequest.from_params a_award_type_codes a_start_date a_end_date
        a_agencies a_program_activities a_recipients a_award_ids a_keywords
        a_award_amounts a_fields a_subawards a_page a_limit a_sort a_order = .ok r)
    (g_scope g_geo_layer g_geo_layer_filters : String)
    (g_award_types g_agencies g_recipients : Option String)
    (g_start_date g_end_date g_subawards g_page g_limit g_sort g_order : String)
    (g : GeographySearchRequest)
    (h2 : GeographySearchRequest.from_params g_scope g_geo_layer g_geo_layer_filters
        g_award_types g_agencies g_recipients g_start_date g_end_date g_subawards
        g_page g_limit g_sort g_order = .ok g) :
    payloadHasNonemptyTimePeriod r.to_api_payload = true ∧
    payloadHasNonemptyTimePeriod g.to_api_payload = true ∧
    ((AwardSearchRequest.from_params "A").map fun q => q.filters.time_period) =
      .ok [{ start_date := "2023-10-01", end_date := "2024-09-30" }] ∧
    ((GeographySearchRequest.from_params "place_of_performance" "state" "VA").map
        fun q => q.filters.time_period) =
      .ok [{ start_date := "2023-10-01", end_date := "2024-09-30" }] :=
  ⟨awardPayload_hasTimePeriod r
      (awardFromParams_time_period_ne_nil a_award_type_codes a_start_date a_end_date
        a_agencies a_program_activities a_recipients a_award_ids a_keywords
        a_award_amounts a_fields a_subawards a_page a_limit a_sort a_order r h1),
   geoPayload_hasTimePeriod g
      (geoFromParams_time_period_ne_nil g_scope g_geo_layer g_geo_layer_filters
        g_award_types g_agencies g_recipients g_start_date g_end_date g_subawards
        g_page g_limit g_sort g_order g h2),
   by rfl,
   by rfl⟩

/-- A concrete successfully-built award request for the C10 witness. -/
def awardReqC10Witness : AwardSearchRequest :=
  match AwardSearchRequest.from_params "A" with
  | .ok r => r
  | .error _ => { filters := { time_period := [] }, pagination := ⟨1, 10, .desc⟩ }

/-- A concrete successfully-built geography request for the C10 witness. -/
def geoReqC10Witness : GeographySearchRequest :=
  match GeographySearchRequest.from_params "place_of_performance" "state" "VA,06" with
  | .ok g => g
  | .error _ =>
    { scope := .place_of_performance, geo_layer := .state, geo_layer_filters := [],
      filters := { time_period := [] }, pagination := ⟨1, 100, .desc⟩ }

/-- Witness for the C10 theorem at concrete inputs. -/
theorem C10_filters_always_contain_time_period_witness :
    AwardSearchRequest.from_params "A" = .ok awardReqC10Witness ∧
    GeographySearchRequest.from_params "place_of_performance" "state" "VA,06" =
      .ok geoReqC10Witness ∧
    payloadHasNonemptyTimePeriod awardReqC10Witness.to_api_payload = true ∧
    payloadHasNonemptyTimePeriod geoReqC10Witness.to_api_payload = true :=
  ⟨by rfl, by rfl,
   (C10_filters_always_contain_time_period "A" "2023-10-01" "2024-09-30"
      none none none none none none none "false" "1" "10" none "desc"
      awardReqC10Witness (by rfl)
      "place_of_performance" "state" "VA,06" none none none
      "2023-10-01" "2024-09-30" "false" "1" "100" "aggregated_amount" "desc"
      geoReqC10Witness (by rfl)).1,
   (C10_filters_always_contain_time_period "A" "2023-10-01" "2024-09-30"
      none none none none none none none "false" "1" "10" none "desc"
      awardReqC10Witness (by rfl)
      "place_of_performance" "state" "VA,06" none none none
      "2023-10-01" "2024-09-30" "false" "1" "100" "aggregated_amount" "desc"
      geoReqC10Witness (by rfl)).2.1⟩

/-! ## The award search tool (`tools/award_spending.py`)

`search_spending_by_award` builds the request, POSTs it, and — when
`fetch_all_pages` lowercases to exactly `"true"` — loops fetching
further pages.  The server is modelled as a function from page number to
either a transport error or a page response; the tool re-builds the same
request with only `page` changed, so one page number determines one
request.  Responses are modelled as having a `results` list and a
`page_metadata` dict (plus arbitrary further entries in `rest`), which
is the shape every response the tool can process has.  The model also
returns the list of page numbers actually fetched (the fetch trace), so
that "how many pages were requested" is a provable quantity. -/

/-- One page response from the search endpoint. -/
structure PageResponse (α : Type) where
  results : List α
  pageMetadata : List (String × JValue)
  rest : List (String × JValue)

/-- `response.get("page_metadata", {}).get("hasNext", False)` under
Python truthiness. -/
def respHasNext {α : Type} (r : PageResponse α) : Bool :=
  jTruthy ((dictGet r.pageMetadata "hasNext").getD (.bool false))

/-- The `while` loop of `search_spending_by_award`, with the recursion
made structural on the explicit iteration budget `maxPages - cur` (the
loop guard `hasNext and current_page < max_pages` is exactly `hasNext`
together with `0 < maxPages - cur`, and each iteration increments
`current_page`, decrementing the budget by one). -/
def fetchPagesAux {α : Type} (fetch : ℕ → Except String (PageResponse α)) :
    ℕ → ℕ → PageResponse α → List α →
    Except String (ℕ × PageResponse α × List α) × List ℕ
  | 0, cur, resp, acc => (.ok (cur, resp, acc), [])
  | k + 1, cur, resp, acc =>
    if respHasNext resp then
      match fetch (cur + 1) with
      | .error e => (.error e, [cur + 1])
      | .ok nxt =>
        let res := fetchPagesAux fetch k (cur + 1) nxt (acc ++ nxt.results)
        (res.1, (cur + 1) :: res.2)
    else (.ok (cur, resp, acc), [])

/-- The `while` loop of `search_spending_by_award`: while the last
response claims a next page and `current_page < max_pages`, increment
the page, fetch it, and append its results.  A transport error aborts
the whole computation (the tool's `except` catches it outside the
loop).  The second component is the fetch trace of the loop. -/
def fetchPages {α : Type} (fetch : ℕ → Except String (PageResponse α))
    (maxPages : ℕ) (cur : ℕ) (resp : PageResponse α) (acc : List α) :
    Except String (ℕ × PageResponse α × List α) × List ℕ :=
  fetchPagesAux fetch (maxPages - cur) cur resp acc

/-- What the award-search tool returns. -/
inductive SearchOutcome (α : Type) where
  | firstPage (resp : PageResponse α)
  | merged (resp : PageResponse α)

/-- A tool body result: either a value or the formatted error string
produced by the tool's `except` clause. -/
inductive ToolResult (α : Type) where
  | ok (r : SearchOutcome α)
  | err (msg : String)

/-- The final combined response: a copy of the last response with
`results` replaced by the accumulation and `page_metadata` augmented
with `total_results_fetched` and `pages_fetched`. -/
def mkFinalResponse {α : Type} (last : PageResponse α) (acc : List α) (cur : ℕ) :
    PageResponse α :=
  { results := acc
    pageMetadata :=
      dictSet (dictSet last.pageMetadata "total_results_fetched" (.num (acc.length : ℚ)))
        "pages_fetched" (.num (cur : ℚ))
    rest := last.rest }

/-- The tool's interpretation of the `fetch_all_pages` flag: the guard
`fetch_all_pages.lower() != "true"` returns the first page early, so the
flag is enabled iff the lowercased string equals `"true"`. -/
def fetchAllPagesTrue (s : String) : Bool := pyLower s == "true"

/-- The fetch-and-paginate part of `search_spending_by_award`: the
initial fetch at the request's own page, the early return when
`fetch_all_pages` is not `"true"`, the loop, and the final combined
response; any transport error becomes the formatted error-string return
of the tool's `except` clause.  Also returns the full fetch trace. -/
def searchSpendingByAward {α : Type} (fetch : ℕ → Except String (PageResponse α))
    (fetchAllPages : String) (startPage maxPages : ℕ) :
    ToolResult α × List ℕ :=
  match fetch startPage with
  | .error e => (.err ("Error searching spending by award: " ++ e), [startPage])
  | .ok resp =>
    if !(fetchAllPagesTrue fetchAllPages) then (.ok (.firstPage resp), [startPage])
    else
      match fetchPages fetch maxPages startPage resp resp.results with
      | (.error e, tr) =>
        (.err ("Error searching spending by award: " ++ e), startPage :: tr)
      | (.ok (cur, last, acc), tr) =>
        (.ok (.merged (mkFinalResponse last acc cur)), startPage :: tr)

/-- The results of the page a given page number fetches (empty for a
transport error; used only to state concatenation-in-page-order). -/
def pageResults {α : Type} (fetch : ℕ → Except String (PageResponse α)) (n : ℕ) :
    List α :=
  match fetch n with
  | .ok p => p.results
  | .error _ => []

/-! ## Concrete servers used in counterexamples and witnesses -/

/-- A server with two pages: page 1 has one result and `hasNext=true`,
page 2 has one result and `hasNext=false`. -/
def twoPageFetch : ℕ → Except String (PageResponse ℕ) := fun n =>
  if n = 1 then .ok ⟨[1], [("hasNext", .bool true)], []⟩
  else .ok ⟨[2], [("hasNext", .bool false)], []⟩

/-- A server whose first page succeeds with `hasNext=true` and whose
later pages fail with a transport error. -/
def failingPage2Fetch : ℕ → Except String (PageResponse ℕ) := fun n =>
  if n = 1 then .ok ⟨[1], [("hasNext", .bool true)], []⟩
  else .error "network down"

/-- A server every page of which has an empty results list and claims
`hasNext=true`. -/
def emptyPagesFetch : ℕ → Except String (PageResponse ℕ) := fun _ =>
  .ok ⟨[], [("hasNext", .bool true)], []⟩

/-- A server with three pages of one result each; pages 1 and 2 have
`hasNext=true`, page 3 has `hasNext=false`. -/
def threePageFetch : ℕ → Except String (PageResponse ℕ) := fun n =>
  if n = 1 then .ok ⟨[1], [("hasNext", .bool true)], []⟩
  else if n = 2 then .ok ⟨[2], [("hasNext", .bool true)], []⟩
  else .ok ⟨[3], [("hasNext", .bool false)], []⟩

/-! ## Claim C2: transport error during pagination -/

/-- Claim C2, counterexample: against a server whose second page raises
a transport error, the tool does not return the partially accumulated
results — it returns the formatted error string (after having fetched
pages 1 and 2). -/
theorem C2_counterexample_error_not_partial :
    searchSpendingByAward failingPage2Fetch "True" 1 3 =
      (.err ("Error searching spending by award: " ++ "network down"), [1, 2]) := by rfl

/-- Claim C2 (amended): when a page fetch after the first raises a
transport error during the pagination loop, the whole tool call returns
the formatted `"Error searching spending by award: ..."` string; the
results accumulated so far are discarded. -/
theorem C2_mid_loop_error_returns_error_string {α : Type}
    (fetch : ℕ → Except String (PageResponse α)) (fa : String)
    (startPage maxPages : ℕ) (r1 : PageResponse α) (e : String) (tr : List ℕ)
    (h1 : fetch startPage = .ok r1)
    (hfa : fetchAllPagesTrue fa = true)
    (h2 : fetchPages fetch maxPages startPage r1 r1.results = (.error e, tr)) :
    (searchSpendingByAward fetch fa startPage maxPages).1 =
      .err ("Error searching spending by award: " ++ e) := by
  simp [searchSpendingByAward, h1, hfa, h2]

/-- Witness for the amended C2 theorem at a concrete server. -/
theorem C2_mid_loop_error_returns_error_string_witness :
    failingPage2Fetch 1 = .ok ⟨[1], [("hasNext", .bool true)], []⟩ ∧
    fetchAllPagesTrue "True" = true ∧
    fetchPages failingPage2Fetch 3 1 ⟨[1], [("hasNext", .bool true)], []⟩ [1] =
      (.error "network down", [2]) ∧
    (searchSpendingByAward failingPage2Fetch "True" 1 3).1 =
      .err ("Error searching spending by award: " ++ "network down") :=
  ⟨by rfl, by rfl, by rfl,
   C2_mid_loop_error_returns_error_string failingPage2Fetch "True" 1 3
     ⟨[1], [("hasNext", .bool true)], []⟩ "network down" [2]
     (by rfl) (by rfl) (by rfl)⟩

/-! ## Claim C4: empty pages and loop termination -/

/-- Claim C4, counterexample: against a server all of whose pages have
an empty `results` list but `hasNext=true`, the loop keeps fetching up
to the page cap — pages 2 and 3 are requested after the empty page 1,
so an empty page does not terminate the loop. -/
theorem C4_counterexample_empty_page_does_not_stop :
    (searchSpendingByAward emptyPagesFetch "True" 1 3).2 = [1, 2, 3] := by rfl

/-- Claim C4 (amended): a fetched page with an empty results list does
not terminate the pagination loop; whenever the current response's
`hasNext` is truthy and the page cap is not reached, the next page is
requested — the loop stops only on falsy `hasNext` or the cap. -/
theorem C4_empty_results_do_not_terminate {α : Type}
    (fetch : ℕ → Except String (PageResponse α)) (maxPages cur : ℕ)
    (resp : PageResponse α) (acc : List α)
    (h1 : respHasNext resp = true) (h2 : cur < maxPages)
    (_h3 : resp.results = []) :
    (fetchPages fetch maxPages cur resp acc).2.head? = some (cur + 1) := by
  unfold fetchPages
  obtain ⟨k, hk⟩ : ∃ k, maxPages - cur = k + 1 := ⟨maxPages - cur - 1, by omega⟩
  rw [hk]
  simp only [fetchPagesAux, h1, if_true]
  cases hf : fetch (cur + 1) <;> simp

/-- Witness for the amended C4 theorem at a concrete server. -/
theorem C4_empty_results_do_not_terminate_witness :
    respHasNext (⟨[], [("hasNext", .bool true)], []⟩ : PageResponse ℕ) = true ∧
    (1 : ℕ) < 3 ∧
    (⟨[], [("hasNext", .bool true)], []⟩ : PageResponse ℕ).results = [] ∧
    (fetchPages emptyPagesFetch 3 1 ⟨[], [("hasNext", .bool true)], []⟩ []).2.head? =
      some 2 :=
  ⟨by rfl, by omega, by rfl,
   C4_empty_results_do_not_terminate emptyPagesFetch 3 1
     ⟨[], [("hasNext", .bool true)], []⟩ [] (by rfl) (by omega) (by rfl)⟩

/-! ## Claim C7: boolean-like string parameters -/

/-- Claim C7, counterexample: `"1"` is interpreted as true for
`subawards` but as false for `fetch_all_pages` — the tool returns the
first page only, without paginating. -/
theorem C7_counterexample_one_disables_full_fetch :
    parseBoolParam "1" = true ∧ fetchAllPagesTrue "1" = false ∧
    searchSpendingByAward twoPageFetch "1" 1 3 =
      (.ok (.firstPage ⟨[1], [("hasNext", .bool true)], []⟩), [1]) :=
  ⟨by rfl, by rfl, by rfl⟩

/-- Claim C7 (amended): `subawards` accepts `{"true","1","yes","on"}`
case-insensitively as true, but `fetch_all_pages` is enabled only when
the string lowercases to exactly `"true"`; with any other string —
including `"1"`, `"yes"`, `"on"` — the tool returns the first page
without paginating. -/
theorem C7_boolean_string_interpretation {α : Type} (s : String)
    (fetch : ℕ → Except String (PageResponse α)) (startPage maxPages : ℕ)
    (resp : PageResponse α)
    (h1 : fetch startPage = .ok resp)
    (h2 : fetchAllPagesTrue s = false) :
    (parseBoolParam s =
      (pyLower s == "true" || pyLower s == "1" || pyLower s == "yes"
        || pyLower s == "on")) ∧
    (fetchAllPagesTrue s = (pyLower s == "true")) ∧
    searchSpendingByAward fetch s startPage maxPages =
      (.ok (.firstPage resp), [startPage]) := by
  refine ⟨?_, by rfl, ?_⟩
  · simp only [parseBoolParam, List.contains]
    rcases pyLower s with l
    simp only [List.elem]
    cases l == "true" <;> cases l == "1" <;> cases l == "yes" <;> cases l == "on" <;> rfl
  · simp [searchSpendingByAward, h1, h2]

/-- Witness for the amended C7 theorem at a concrete input. -/
theorem C7_boolean_string_interpretation_witness :
    twoPageFetch 1 = .ok ⟨[1], [("hasNext", .bool true)], []⟩ ∧
    fetchAllPagesTrue "yes" = false ∧
    searchSpendingByAward twoPageFetch "yes" 1 3 =
      (.ok (.firstPage ⟨[1], [("hasNext", .bool true)], []⟩), [1]) :=
  ⟨by rfl, by rfl,
   (C7_boolean_string_interpretation "yes" twoPageFetch 1 3
     ⟨[1], [("hasNext", .bool true)], []⟩ (by rfl) (by rfl)).2.2⟩

/-! ## Loop invariants of the pagination aggregator -/

theorem fetchPagesAux_trace_length {α : Type}
    (fetch : ℕ → Except String (PageResponse α)) :
    ∀ (k cur : ℕ) (resp : PageResponse α) (acc : List α),
      (fetchPagesAux fetch k cur resp acc).2.length ≤ k := by
  intro k
  induction k with
  | zero => intro cur resp acc; simp [fetchPagesAux]
  | succ k ih =>
    intro cur resp acc
    simp only [fetchPagesAux]
    cases hnext : respHasNext resp
    · simp
    · simp only [if_true]
      cases hf : fetch (cur + 1) with
      | error e => simp
      | ok nxt =>
        simp only [List.length_cons]
        have := ih (cur + 1) nxt (acc ++ nxt.results)
        omega

theorem fetchPagesAux_ok_inv {α : Type}
    (fetch : ℕ → Except String (PageResponse α)) :
    ∀ (k cur : ℕ) (resp : PageResponse α) (acc : List α)
      (out : ℕ × PageResponse α × List α) (tr : List ℕ),
      fetchPagesAux fetch k cur resp acc = (.ok out, tr) →
      fetch cur = .ok resp →
      out.1 = cur + tr.length ∧
      tr = List.range' (cur + 1) tr.length ∧
      out.2.2 = acc ++ (tr.map (pageResults fetch)).flatten ∧
      fetch out.1 = .ok out.2.1 := by
  intro k
  induction k with
  | zero =>
    intro cur resp acc out tr h hcur
    simp only [fetchPagesAux, Prod.mk.injEq] at h
    obtain ⟨h1, h2⟩ := h
    have ho := Except.ok.inj h1
    subst h2
    rw [← ho]
    simp [List.range', hcur]
  | succ k ih =>
    intro cur resp acc out tr h hcur
    simp only [fetchPagesAux] at h
    cases hnext : respHasNext resp
    · rw [hnext] at h
      simp only [Bool.false_eq_true, if_false, Prod.mk.injEq] at h
      obtain ⟨h1, h2⟩ := h
      have ho := Except.ok.inj h1
      subst h2
      rw [← ho]
      simp [List.range', hcur]
    · rw [hnext] at h
      simp only [if_true] at h
      cases hf : fetch (cur + 1) with
      | error e =>
        rw [hf] at h
        simp at h
      | ok nxt =>
        rw [hf] at h
        rcases hres : fetchPagesAux fetch k (cur + 1) nxt (acc ++ nxt.results)
          with ⟨res1, res2⟩
        simp only [hres, Prod.mk.injEq] at h
        obtain ⟨h1, h2⟩ := h
        have hinner : fetchPagesAux fetch k (cur + 1) nxt (acc ++ nxt.results) =
            (.ok out, res2) := by rw [hres, h1]
        obtain ⟨i1, i2, i3, i4⟩ := ih (cur + 1) nxt (acc ++ nxt.results) out res2 hinner hf
        subst h2
        refine ⟨by simp [i1]; omega, ?_, ?_, i4⟩
        · simp only [List.length_cons]
          rw [List.range']
          rw [← i2]
        · rw [i3]
          simp [pageResults, hf, List.append_assoc]

theorem dictGet_dictSet_self (d : List (String × JValue)) (k : String) (v : JValue) :
    dictGet (dictSet d k v) k = some v := by
  induction d with
  | nil => simp [dictSet, dictGet]
  | cons kv rest ih =>
    by_cases hk : kv.1 = k
    · simp [dictSet, dictGet, hk]
    · simp [dictSet, dictGet, hk, ih]

/-! ## Claim C5: the page cap -/

/-- Claim C5: with `fetch_all_pages` enabled and starting at page 1, the
tool issues at most `max_pages` page fetches for every server behavior;
with `max_pages = 1` exactly one page (page 1) is fetched regardless of
`hasNext`; and against a server with 3 pages whose third page has
`hasNext = false`, with `max_pages = 3` exactly the pages 1, 2, 3 are
fetched and the merged response reports `pages_fetched = 3`. -/
theorem C5_page_cap {α : Type} (fetch : ℕ → Except String (PageResponse α))
    (fa : String) (maxPages : ℕ)
    (hfa : fetchAllPagesTrue fa = true) (hmax : 1 ≤ maxPages) :
    (searchSpendingByAward fetch fa 1 maxPages).2.length ≤ maxPages ∧
    (maxPages = 1 → (searchSpendingByAward fetch fa 1 maxPages).2 = [1]) ∧
    (maxPages = 3 → ∀ r1 r2 r3, fetch 1 = .ok r1 → fetch 2 = .ok r2 → fetch 3 = .ok r3 →
      respHasNext r1 = true → respHasNext r2 = true → respHasNext r3 = false →
      (searchSpendingByAward fetch fa 1 maxPages).2 = [1, 2, 3] ∧
      ∃ f, (searchSpendingByAward fetch fa 1 maxPages).1 = .ok (.merged f) ∧
        dictGet f.pageMetadata "pages_fetched" = some (.num ((3 : ℕ) : ℚ))) := by
  refine ⟨?_, ?_, ?_⟩
  · unfold searchSpendingByAward
    cases hf : fetch 1 with
    | error e => simpa using hmax
    | ok resp =>
      simp only [hfa, Bool.not_true, Bool.false_eq_true, if_false]
      rcases hfp : fetchPages fetch maxPages 1 resp resp.results with ⟨out, tr⟩
      have htr : tr.length ≤ maxPages - 1 := by
        have hlen := fetchPagesAux_trace_length fetch (maxPages - 1) 1 resp resp.results
        unfold fetchPages at hfp
        rw [hfp] at hlen
        simpa using hlen
      cases out with
      | error e => simp only [List.length_cons]; omega
      | ok o =>
        rcases o with ⟨cur, last, acc⟩
        simp only [List.length_cons]
        omega
  · intro h1
    subst h1
    unfold searchSpendingByAward fetchPages
    cases hf : fetch 1 with
    | error e => rfl
    | ok resp => simp [hfa, fetchPagesAux]
  · intro h3 r1 r2 r3 hf1 hf2 hf3 hn1 hn2 hn3
    subst h3
    have hloop : fetchPages fetch 3 1 r1 r1.results =
        (.ok (3, r3, (r1.results ++ r2.results) ++ r3.results), [2, 3]) := by
      unfold fetchPages
      simp [fetchPagesAux, hn1, hn2, hn3, hf2, hf3]
    constructor
    · simp [searchSpendingByAward, hf1, hfa, hloop]
    · refine ⟨mkFinalResponse r3 ((r1.results ++ r2.results) ++ r3.results) 3, ?_, ?_⟩
      · simp [searchSpendingByAward, hf1, hfa, hloop]
      · exact dictGet_dictSet_self _ _ _

/-- Witness for the C5 theorem at a concrete server. -/
theorem C5_page_cap_witness :
    fetchAllPagesTrue "True" = true ∧ (1 : ℕ) ≤ 3 ∧
    (searchSpendingByAward threePageFetch "True" 1 3).2.length ≤ 3 :=
  ⟨by rfl, by omega,
   (C5_page_cap threePageFetch "True" 3 (by rfl) (by omega)).1⟩

/-! ## Claim C6: shape of the merged multi-page response -/

/-- Claim C6, counterexample: a completed two-page run produces a merged
response whose `page_metadata` gains only `total_results_fetched` and
`pages_fetched`; `requested_max_pages`, `has_more_pages` and
`fetch_completed` are absent, so the claimed five-key augmentation is
false. -/
theorem C6_counterexample_missing_metadata_keys :
    (searchSpendingByAward twoPageFetch "True" 1 3).1 =
      .ok (.merged ⟨[1, 2],
        [("hasNext", .bool false),
         ("total_results_fetched", .num ((2 : ℕ) : ℚ)),
         ("pages_fetched", .num ((2 : ℕ) : ℚ))], []⟩) ∧
    dictGet [("hasNext", .bool false),
      ("total_results_fetched", .num ((2 : ℕ) : ℚ)),
      ("pages_fetched", .num ((2 : ℕ) : ℚ))] "requested_max_pages" = none ∧
    dictGet [("hasNext", .bool false),
      ("total_results_fetched", .num ((2 : ℕ) : ℚ)),
      ("pages_fetched", .num ((2 : ℕ) : ℚ))] "has_more_pages" = none ∧
    dictGet [("hasNext", .bool false),
      ("total_results_fetched", .num ((2 : ℕ) : ℚ)),
      ("pages_fetched", .num ((2 : ℕ) : ℚ))] "fetch_completed" = none :=
  ⟨by rfl, by rfl, by rfl, by rfl⟩

/-- Claim C6 (amended): every completed multi-page run returns the last
response with `results` replaced by the concatenation of the fetched
pages' results in page order, and `page_metadata` augmented with exactly
`total_results_fetched` (the number of accumulated results) and
`pages_fetched` (the number of pages fetched); the other top-level
entries of the last response are kept unchanged. -/
theorem C6_merged_response_structure {α : Type}
    (fetch : ℕ → Except String (PageResponse α)) (fa : String) (maxPages : ℕ)
    (f : PageResponse α) (tr : List ℕ)
    (hfa : fetchAllPagesTrue fa = true)
    (h : searchSpendingByAward fetch fa 1 maxPages = (.ok (.merged f), tr)) :
    tr = List.range' 1 tr.length ∧
    f.results = (tr.map (pageResults fetch)).flatten ∧
    ∃ last, fetch tr.length = .ok last ∧
      f.pageMetadata = dictSet (dictSet last.pageMetadata "total_results_fetched"
          (.num (f.results.length : ℚ))) "pages_fetched" (.num (tr.length : ℚ)) ∧
      f.rest = last.rest := by
  unfold searchSpendingByAward at h
  cases hf1 : fetch 1 with
  | error e => rw [hf1] at h; simp at h
  | ok r1 =>
    rw [hf1] at h
    simp only [hfa, Bool.not_true, Bool.false_eq_true, if_false] at h
    rcases hfp : fetchPages fetch maxPages 1 r1 r1.results with ⟨out, tr'⟩
    rw [hfp] at h
    cases out with
    | error e => simp at h
    | ok o =>
      rcases o with ⟨cur, last, acc⟩
      simp only [Prod.mk.injEq] at h
      obtain ⟨h1, h2⟩ := h
      have hmf := SearchOutcome.merged.inj (ToolResult.ok.inj h1)
      unfold fetchPages at hfp
      obtain ⟨i1, i2, i3, i4⟩ :=
        fetchPagesAux_ok_inv fetch (maxPages - 1) 1 r1 r1.results
          (cur, last, acc) tr' hfp hf1
      simp only at i1 i2 i3 i4
      have hlen : tr.length = tr'.length + 1 := by rw [← h2]; simp
      have hcur : cur = tr.length := by omega
      refine ⟨?_, ?_, last, ?_, ?_, ?_⟩
      · rw [hlen, ← h2, List.range']
        rw [← i2]
      · rw [← hmf]
        simp only [mkFinalResponse]
        rw [i3, ← h2]
        simp [pageResults, hf1]
      · rw [← hcur]
        exact i4
      · rw [← hmf]
        simp only [mkFinalResponse]
        rw [hcur]
      · rw [← hmf]
        simp [mkFinalResponse]

/-- The merged response of the two-page witness run. -/
def mergedC6Witness : PageResponse ℕ :=
  match (searchSpendingByAward twoPageFetch "True" 1 3).1 with
  | .ok (.merged f) => f
  | _ => ⟨[], [], []⟩

/-- Witness for the amended C6 theorem at a concrete server. -/
theorem C6_merged_response_structure_witness :
    fetchAllPagesTrue "True" = true ∧
    searchSpendingByAward twoPageFetch "True" 1 3 =
      (.ok (.merged mergedC6Witness), [1, 2]) ∧
    ([1, 2] = List.range' 1 ([1, 2] : List ℕ).length ∧
     mergedC6Witness.results =
       ((([1, 2] : List ℕ)).map (pageResults twoPageFetch)).flatten ∧
     ∃ last, twoPageFetch ([1, 2] : List ℕ).length = .ok last ∧
       mergedC6Witness.pageMetadata =
         dictSet (dictSet last.pageMetadata "total_results_fetched"
           (.num (mergedC6Witness.results.length : ℚ))) "pages_fetched"
           (.num ((([1, 2] : List ℕ)).length : ℚ)) ∧
       mergedC6Witness.rest = last.rest) :=
  ⟨by rfl, by rfl,
   C6_merged_response_structure twoPageFetch "True" 3 mergedC6Witness [1, 2]
     (by rfl) (by rfl)⟩

/-! ## The award details tool (`tools/award_spending.py`) -/

/-- The comma-split-strip-drop-empties parse of the `award_id`
parameter. -/
def parseAwardIds (s : String) : List String :=
  ((pySplitS ',' s).map pyStripS).filter fun aid => aid ≠ ""

/-- What `get_award_details` returns: a raw detail payload (single-ID
case), a formatted error string, or the multi-ID summary object. -/
inductive DetailsResult where
  | json (v : JValue)
  | errMsg (s : String)
  | summary (success_count error_count : ℕ)
      (results : List (String × JValue)) (errors : Option (List (String × String)))

/-- One step of the result-partitioning loop of `get_award_details`:
successes go into the `success_results` dict, failures into
`error_results`, keyed by award ID. -/
def detailsFoldStep (st : List (String × JValue) × List (String × String))
    (p : String × Except String JValue) :
    List (String × JValue) × List (String × String) :=
  match p.2 with
  | .ok d => (dictSet st.1 p.1 d, st.2)
  | .error e => (st.1, dictSet st.2 p.1 e)

/-- `get_award_details` from `tools/award_spending.py`.  The per-ID
fetch outcome function models `client.get(f"awards/{id}/")`; the
bounded-concurrency `asyncio.gather` preserves input order and the
per-ID outcomes are independent, so the partitioning loop over the
gathered results is modelled as a sequential fold in input order. -/
def get_award_details (fetchOne : String → Except String JValue)
    (award_id : String) : DetailsResult :=
  let award_ids := parseAwardIds award_id
  if award_ids.isEmpty then .errMsg "Error: No valid award IDs provided"
  else if award_ids.length = 1 then
    match fetchOne (award_ids.headD "") with
    | .ok d => .json d
    | .error e =>
      .errMsg ("Error getting award details for " ++ award_ids.headD "" ++ ": " ++ e)
  else if award_ids.length > 10 then
    .errMsg "Error: Maximum 10 awards allowed per request"
  else
    let outcomes := award_ids.map fun aid => (aid, fetchOne aid)
    let folded := outcomes.foldl detailsFoldStep ([], [])
    .summary folded.1.length folded.2.length folded.1
      (if folded.2.isEmpty then none else some folded.2)

/-! ## Claim C9: partial success of the concurrent detail fetch -/

/-- Whether a fetch outcome is a success. -/
def exceptIsOk {ε α : Type} : Except ε α → Bool
  | .ok _ => true
  | .error _ => false

/-- The successful outcomes, keyed by ID, in input order (what the
success dict contains when the IDs are distinct). -/
def detailsOkPart (l : List (String × Except String JValue)) :
    List (String × JValue) :=
  l.filterMap fun p =>
    match p.2 with
    | .ok d => some (p.1, d)
    | .error _ => none

/-- The failed outcomes, keyed by ID, in input order. -/
def detailsErrPart (l : List (String × Except String JValue)) :
    List (String × String) :=
  l.filterMap fun p =>
    match p.2 with
    | .ok _ => none
    | .error e => some (p.1, e)

theorem dictSet_append {β : Type} (d : List (String × β)) (k : String) (v : β)
    (h : k ∉ d.map Prod.fst) : dictSet d k v = d ++ [(k, v)] := by
  induction d with
  | nil => rfl
  | cons kv rest ih =>
    simp only [List.map_cons, List.mem_cons, not_or] at h
    have hk : ¬ (kv.1 = k) := fun hh => h.1 hh.symm
    simp [dictSet, hk, ih h.2]

theorem detailsFold_eq (l : List (String × Except String JValue))
    (s0 : List (String × JValue)) (e0 : List (String × String))
    (hnd : (l.map Prod.fst).Nodup)
    (hs : ∀ k ∈ l.map Prod.fst, k ∉ s0.map Prod.fst)
    (he : ∀ k ∈ l.map Prod.fst, k ∉ e0.map Prod.fst) :
    l.foldl detailsFoldStep (s0, e0) =
      (s0 ++ detailsOkPart l, e0 ++ detailsErrPart l) := by
  induction l generalizing s0 e0 with
  | nil => simp [detailsOkPart, detailsErrPart]
  | cons p rest ih =>
    rcases p with ⟨k, out⟩
    simp only [List.map_cons, List.nodup_cons] at hnd
    cases out with
    | ok d =>
      have hset : dictSet s0 k d = s0 ++ [(k, d)] :=
        dictSet_append s0 k d (hs k (by simp))
      have hs2 : ∀ k2 ∈ rest.map Prod.fst, k2 ∉ (s0 ++ [(k, d)]).map Prod.fst := by
        intro k2 hk2
        simp only [List.map_append, List.mem_append, List.map_cons, List.map_nil,
          List.mem_singleton, not_or]
        refine ⟨hs k2 (by simp [hk2]), ?_⟩
        exact fun hh => hnd.1 (hh ▸ hk2)
      have he2 : ∀ k2 ∈ rest.map Prod.fst, k2 ∉ e0.map Prod.fst :=
        fun k2 hk2 => he k2 (by simp [hk2])
      simp only [List.foldl_cons, detailsFoldStep, hset]
      rw [ih (s0 ++ [(k, d)]) e0 hnd.2 hs2 he2]
      simp [detailsOkPart, detailsErrPart, List.filterMap_cons]
    | error e =>
      have hset : dictSet e0 k e = e0 ++ [(k, e)] :=
        dictSet_append e0 k e (he k (by simp))
      have hs2 : ∀ k2 ∈ rest.map Prod.fst, k2 ∉ s0.map Prod.fst :=
        fun k2 hk2 => hs k2 (by simp [hk2])
      have he2 : ∀ k2 ∈ rest.map Prod.fst, k2 ∉ (e0 ++ [(k, e)]).map Prod.fst := by
        intro k2 hk2
        simp only [List.map_append, List.mem_append, List.map_cons, List.map_nil,
          List.mem_singleton, not_or]
        refine ⟨he k2 (by simp [hk2]), ?_⟩
        exact fun hh => hnd.1 (hh ▸ hk2)
      simp only [List.foldl_cons, detailsFoldStep, hset]
      rw [ih s0 (e0 ++ [(k, e)]) hnd.2 hs2 he2]
      simp [detailsOkPart, detailsErrPart, List.filterMap_cons]

theorem detailsOkPart_length (ids : List String)
    (f : String → Except String JValue) :
    (detailsOkPart (ids.map fun aid => (aid, f aid))).length =
      (ids.filter fun aid => exceptIsOk (f aid)).length := by
  induction ids with
  | nil => rfl
  | cons a rest ih =>
    cases hf : f a with
    | ok d =>
      have hok : exceptIsOk (Except.ok d : Except String JValue) = true := rfl
      simp only [List.map_cons, detailsOkPart, List.filterMap_cons, List.filter_cons, hf]
      simpa [detailsOkPart, hok] using ih
    | error e =>
      have hok : exceptIsOk (Except.error e : Except String JValue) = false := rfl
      simp only [List.map_cons, detailsOkPart, List.filterMap_cons, List.filter_cons, hf]
      simpa [detailsOkPart, hok] using ih

theorem detailsErrPart_length (ids : List String)
    (f : String → Except String JValue) :
    (detailsErrPart (ids.map fun aid => (aid, f aid))).length =
      (ids.filter fun aid => !exceptIsOk (f aid)).length := by
  induction ids with
  | nil => rfl
  | cons a rest ih =>
    cases hf : f a with
    | ok d =>
      have hok : exceptIsOk (Except.ok d : Except String JValue) = true := rfl
      simp only [List.map_cons, detailsErrPart, List.filterMap_cons, List.filter_cons, hf]
      simpa [detailsErrPart, hok] using ih
    | error e =>
      have hok : exceptIsOk (Except.error e : Except String JValue) = false := rfl
      simp only [List.map_cons, detailsErrPart, List.filterMap_cons, List.filter_cons, hf]
      simpa [detailsErrPart, hok] using ih

theorem detailsErrPart_ne_nil (ids : List String)
    (f : String → Except String JValue) (aid : String) (ha : aid ∈ ids)
    (hfail : exceptIsOk (f aid) = false) :
    (detailsErrPart (ids.map fun a => (a, f a))).isEmpty = false := by
  cases hf : f aid with
  | ok d => rw [hf] at hfail; simp [exceptIsOk] at hfail
  | error e =>
    have hmem : (aid, e) ∈ detailsErrPart (ids.map fun a => (a, f a)) := by
      simp only [detailsErrPart, List.mem_filterMap]
      refine ⟨(aid, f aid), List.mem_map_of_mem _ ha, ?_⟩
      simp [hf]
    rcases hl : detailsErrPart (ids.map fun a => (a, f a)) with _ | ⟨x, xs⟩
    · rw [hl] at hmem; simp at hmem
    · rfl

theorem map_fst_pairing (ids : List String) (f : String → Except String JValue) :
    (ids.map fun aid => (aid, f aid)).map Prod.fst = ids := by
  induction ids with
  | nil => rfl
  | cons a rest ih => simp [ih]

/-- Claim C9: for every `award_id` string that parses to a list of 2 to
10 distinct award IDs, some of which fail to fetch, `get_award_details`
returns a summary whose `success_count` is the number of successfully
fetched IDs, whose `error_count` is the number of failed IDs, whose
`results` map holds exactly the successful IDs with their payloads (in
input order), and whose `errors` map is present and holds exactly the
failed IDs; every ID is processed, so one failure does not prevent the
other fetches. -/
theorem C9_details_partial_success (fetchOne : String → Except String JValue)
    (award_id : String)
    (h2 : 2 ≤ (parseAwardIds award_id).length)
    (h10 : (parseAwardIds award_id).length ≤ 10)
    (hnd : (parseAwardIds award_id).Nodup)
    (hfail : ∃ aid ∈ parseAwardIds award_id, exceptIsOk (fetchOne aid) = false) :
    get_award_details fetchOne award_id =
      .summary
        ((parseAwardIds award_id).filter fun aid => exceptIsOk (fetchOne aid)).length
        ((parseAwardIds award_id).filter fun aid => !exceptIsOk (fetchOne aid)).length
        (detailsOkPart ((parseAwardIds award_id).map fun aid => (aid, fetchOne aid)))
        (some (detailsErrPart
          ((parseAwardIds award_id).map fun aid => (aid, fetchOne aid)))) := by
  have hfold := detailsFold_eq
    ((parseAwardIds award_id).map fun aid => (aid, fetchOne aid)) [] []
    (by rw [map_fst_pairing]; exact hnd)
    (by simp) (by simp)
  obtain ⟨aid, haid, hbad⟩ := hfail
  have herr := detailsErrPart_ne_nil (parseAwardIds award_id) fetchOne aid haid hbad
  simp only [get_award_details]
  rcases hids : parseAwardIds award_id with _ | ⟨a, _ | ⟨b, rest⟩⟩
  · rw [hids] at h2; simp at h2
  · rw [hids] at h2; simp at h2
  · rw [hids] at h10 hfold herr
    have hlen1 : ¬ ((a :: b :: rest).length = 1) := by simp
    have hlen10 : ¬ ((a :: b :: rest).length > 10) := by omega
    simp only [List.isEmpty_cons, Bool.false_eq_true, if_false, hlen1, hlen10,
      if_false, hfold, List.nil_append]
    rw [detailsOkPart_length (a :: b :: rest) fetchOne,
        detailsErrPart_length (a :: b :: rest) fetchOne]
    simp only [List.map_cons] at herr
    simp at herr
    simp [herr]

/-- A concrete per-ID fetch outcome function: ID `B` fails, the others
succeed. -/
def detailsFetchWitness : String → Except String JValue := fun aid =>
  if aid = "B" then .error "boom" else .ok (.str ("data-" ++ aid))

/-- Witness for the C9 theorem at a concrete input: three IDs of which
one fails. -/
theorem C9_details_partial_success_witness :
    2 ≤ (parseAwardIds "A,B,C").length ∧
    (parseAwardIds "A,B,C").length ≤ 10 ∧
    (parseAwardIds "A,B,C").Nodup ∧
    get_award_details detailsFetchWitness "A,B,C" =
      .summary 2 1 [("A", .str ("data-" ++ "A")), ("C", .str ("data-" ++ "C"))]
        (some [("B", "boom")]) :=
  ⟨by decide, by decide, by decide,
   (C9_details_partial_success detailsFetchWitness "A,B,C" (by decide) (by decide)
      (by decide) ⟨"B", by decide, by rfl⟩).trans (by rfl)⟩

end USASpending
